import Mathlib

/-!
A verification development for the OWScript transpiler
(`src/OWScript/Transpiler.py`).  The Python visitors are shallowly embedded
as Lean functions: pure string emission becomes `String` computation, the
two slot counters become an explicit `TState` record threaded through the
assignment visitors, scope chains become lists of association lists, and
Python exceptions become `Except` values.  The AST node classes live in
`AST.py`, which is not part of the sources; the numeric behaviour of
`Number` nodes is therefore modelled from the spec (exact rational
arithmetic), as noted on the definitions concerned.
-/

/-- Binary operator tokens appearing in `visitBinaryOp` / `visitAssign`. -/
inductive BOp where
  | add | sub | mul | div | pow | mod | orB | andB
deriving DecidableEq

/-- Expression AST nodes, as produced by the external parser and consumed by
the transpiler's visitors.  `AST.py` is not in the sources; the node shapes
follow spec section 3 and the attribute accesses made by `Transpiler.py`.
`num` carries an exact rational in place of Python's numeric payload. -/
inductive Node where
  | num (value : ℚ)
  | strNode (value : String) (children : List Node)
  | const (name : String)
  | owid (name : String) (children : List Node)
  | gvar (name : String)
  | pvar (name : String) (player : Node)
  | arrLit (elements : List Node)
  | binOp (op : BOp) (left : Node) (right : Node)

/-- Error kinds (module `Errors`, referenced from `Transpiler.py`), plus the
internal return signal (`Errors.ReturnError`) and a sink `unmodelled` for
code paths where the Python program would crash with a non-`Errors`
exception (AttributeError on a non-Variable binding, IndexError, float
exponentiation outside the exact model). -/
inductive TErr where
  | nameErr (msg : String)
  | invalidParameter (msg : String)
  | notImplementedErr (msg : String)
  | syntaxErr (msg : String)
  | returnSignal (value : Node)
  | unmodelled

/-- A compile-time binding: `Scope.assign` always wraps in a
`Variable(value, index)` (modelled by `var`); `visitCall` also injects raw
argument nodes into a namespace (modelled by `raw`). -/
inductive Binding where
  | var (value : Node) (index : Option Int)
  | raw (node : Node)

/-- One namespace: the local name-to-binding mapping of a `Scope`. -/
abbrev NS := List (String × Binding)

/-- A scope chain, innermost namespace first; `Scope.parent` links become
the tail of the list. -/
abbrev Scope := List NS

/-- The two monotonic slot counters (`Transpiler.global_index` /
`Transpiler.player_index`). -/
structure TState where
  globalIndex : Int
  playerIndex : Int

/-- Dictionary lookup inside one namespace. -/
def lookupNS : NS → String → Option Binding
  | [], _ => none
  | (k, b) :: rest, n => if n = k then some b else lookupNS rest n

/-- `Scope.get`: search the local namespace, then walk the parent chain. -/
def scopeGet : Scope → String → Option Binding
  | [], _ => none
  | ns :: parents, n =>
    match lookupNS ns n with
    | some b => some b
    | none => scopeGet parents n

/-- Dictionary store (replace or append) inside one namespace. -/
def setNS : NS → String → Binding → NS
  | [], n, b => [(n, b)]
  | (k, v) :: rest, n, b => if n = k then (n, b) :: rest else (k, v) :: setNS rest n b

/-- `Scope.assign`: always writes `Variable(value, index)` into the local
namespace only. -/
def scopeAssign : Scope → String → Node → Option Int → Scope
  | [], n, v, i => [[(n, Binding.var v i)]]
  | ns :: parents, n, v, i => setNS ns n (Binding.var v i) :: parents

/-- Overwrite the value (keeping the index) of a `var` binding. -/
def setBindingValue : Binding → Node → Binding
  | Binding.var _ i, v => Binding.var v i
  | b, _ => b

/-- In-place value mutation inside one namespace. -/
def mutNS : NS → String → Node → NS
  | [], _, _ => []
  | (k, b) :: rest, n, v => if n = k then (k, setBindingValue b v) :: rest else (k, b) :: mutNS rest n v

/-- Models the in-place mutation `var.value[index] = value` performed by the
`Item` branch of `visitAssign`: the `Variable` object found by `scope.get`
is shared with the namespace that holds it, so its value changes where it
is bound (the slot index it carries is untouched). -/
def scopeMutate : Scope → String → Node → Scope
  | [], _, _ => []
  | ns :: parents, n, v =>
    match lookupNS ns n with
    | some _ => mutNS ns n v :: parents
    | none => ns :: scopeMutate parents n v

/-- Python's `str.title()` restricted to the ASCII alphabet: an alphabetic
character is uppercased after a non-alphabetic one and lowercased after an
alphabetic one. -/
def pyTitleGo : Bool → List Char → List Char
  | _, [] => []
  | prev, c :: cs =>
    (if c.isAlpha then (if prev then c.toLower else c.toUpper) else c) :: pyTitleGo c.isAlpha cs

/-- Python `str.title()` (ASCII). -/
def pyTitle (s : String) : String := String.mk (pyTitleGo false s.data)

/-- Rendering of a `Number` literal (`visitNumber` returns the node's
value).  Python stores the source text / `str(result)`; the exact model
prints integers without a fractional part. -/
def renderQ (q : ℚ) : String := if q.den = 1 then toString q.num else toString q

/-- Python string formatting of a slot index that may be `None`. -/
def optIdxStr : Option Int → String
  | none => "None"
  | some i => toString i

/-- Python `sep.join(list)`. -/
def pyJoin (sep : String) : List String → String
  | [] => ""
  | [x] => x
  | x :: y :: rest => x ++ sep ++ pyJoin sep (y :: rest)

/-- Python `'Append To Array(' * n` (string repetition), used by
`visitArray`. -/
def appendChain : Nat → String
  | 0 => ""
  | n + 1 => "Append To Array(" ++ appendChain n

/-- Outcome of one of the `lambda` entries of `visitBinaryOp`'s operator
table: `zeroDiv` models `ZeroDivisionError`; `floatPow` marks a non-integer
exponent, where Python would produce an inexact float that the exact
rational model does not represent. -/
inductive PyNumErr where
  | zeroDiv
  | floatPow

/-- The operator table of `visitBinaryOp` (lines 285-292): the six
arithmetic entries, with `or`/`and` absent (`dict.get` returns `None`).
`Number` arithmetic itself lives in the absent `AST.py`; it is modelled
from the spec as exact rational arithmetic (`%` with Python's
floor-division semantics, `^` for integer exponents). -/
def numTable : BOp → Option (ℚ → ℚ → Except PyNumErr ℚ)
  | BOp.add => some (fun a b => Except.ok (a + b))
  | BOp.sub => some (fun a b => Except.ok (a - b))
  | BOp.mul => some (fun a b => Except.ok (a * b))
  | BOp.div => some (fun a b => if b = 0 then Except.error PyNumErr.zeroDiv else Except.ok (a / b))
  | BOp.pow => some (fun a b =>
      if b.den = 1 then
        (if a = 0 ∧ b.num < 0 then Except.error PyNumErr.zeroDiv else Except.ok (a ^ b.num))
      else Except.error PyNumErr.floatPow)
  | BOp.mod => some (fun a b =>
      if b = 0 then Except.error PyNumErr.zeroDiv else Except.ok (a - b * (⌊a / b⌋ : ℚ)))
  | BOp.orB => none
  | BOp.andB => none

/-- The instruction-name table of `visitBinaryOp` (lines 299-308). -/
def opName : BOp → String
  | BOp.add => "Add"
  | BOp.sub => "Subtract"
  | BOp.mul => "Multiply"
  | BOp.div => "Divide"
  | BOp.pow => "Raise To Power"
  | BOp.mod => "Modulo"
  | BOp.orB => "Or"
  | BOp.andB => "And"

/-- `type(var.value) == String` test made by `visitGlobalVar` /
`visitPlayerVar`. -/
def isStrNode : Node → Bool
  | Node.strNode _ _ => true
  | _ => false

/-- `type(elem) in (String, Constant)` test made by `visitArray`. -/
def isStrOrConst : Node → Bool
  | Node.strNode _ _ => true
  | Node.const _ => true
  | _ => false

mutual

/-- The expression fragment of the `visit` dispatcher: `visitNumber`,
`visitString`, `visitConstant`, `visitOWID` (argument-vocabulary validation
is against external static data and is not modelled), `visitGlobalVar`,
`visitPlayerVar`, `visitArray` and `visitBinaryOp` (including its constant
fold).  A lookup that lands on a non-`Variable` binding re-dispatches on
the stored object in Python (unbounded recursion through the scope);
that path is `unmodelled` here. -/
def render (sc : Scope) : Node → Except TErr String
  | Node.num v => Except.ok (renderQ v)
  | Node.strNode v cs =>
    match renderList sc cs with
    | Except.error e => Except.error e
    | Except.ok rs => Except.ok ("String(\"" ++ pyTitle v ++ "\", " ++ pyJoin (", ") rs ++ ")")
  | Node.const n => Except.ok (pyTitle n)
  | Node.owid n cs =>
    match renderList sc cs with
    | Except.error e => Except.error e
    | Except.ok rs => Except.ok (pyTitle n ++ "(" ++ pyJoin (", ") rs ++ ")")
  | Node.gvar n =>
    match scopeGet sc n with
    | none => Except.error (TErr.nameErr n)
    | some (Binding.raw _) => Except.error TErr.unmodelled
    | some (Binding.var v idx) =>
      match v with
      | Node.strNode s _ => Except.ok s
      | _ => Except.ok ("Value In Array(Global Variable(A), " ++ optIdxStr idx ++ ")")
  | Node.pvar n player =>
    match scopeGet sc n with
    | none => Except.error (TErr.nameErr n)
    | some (Binding.raw _) => Except.error TErr.unmodelled
    | some (Binding.var v idx) =>
      match v with
      | Node.strNode s _ => Except.ok s
      | _ =>
        match render sc player with
        | Except.error e => Except.error e
        | Except.ok ps =>
          Except.ok ("Value In Array(Player Variable(" ++ ps ++ ", A), " ++ optIdxStr idx ++ ")")
  | Node.arrLit elems =>
    match elems with
    | [] => Except.ok ("Empty Array")
    | e :: es =>
      match renderArrList sc (e :: es) with
      | Except.error err => Except.error err
      | Except.ok rs =>
        match rs.length with
        | 0 => Except.ok ("Empty Array")
        | n + 1 => Except.ok (appendChain (n + 1) ++ "Empty Array, " ++ pyJoin ("), ") rs ++ ")")
  | Node.binOp op l r =>
    match l, r, numTable op with
    | Node.num a, Node.num b, some f =>
      (match f a b with
       | Except.ok q => Except.ok (renderQ q)
       | Except.error PyNumErr.zeroDiv => Except.ok (renderQ 0)
       | Except.error PyNumErr.floatPow => Except.error TErr.unmodelled)
    | l', r', _ =>
      match render sc l' with
      | Except.error e => Except.error e
      | Except.ok ls =>
        match render sc r' with
        | Except.error e => Except.error e
        | Except.ok rs => Except.ok (opName op ++ "(" ++ ls ++ ", " ++ rs ++ ")")

/-- Visits each child in order (list comprehensions in `visitString` /
`visitOWID`), propagating the first raised error. -/
def renderList (sc : Scope) : List Node → Except TErr (List String)
  | [] => Except.ok []
  | e :: es =>
    match render sc e with
    | Except.error err => Except.error err
    | Except.ok r =>
      match renderList sc es with
      | Except.error err => Except.error err
      | Except.ok rs => Except.ok (r :: rs)

/-- The element pass of `visitArray` (lines 374-379): a `String` or
`Constant` element is replaced by `Constant(name='Null')` — rendered by
`visitConstant` as its title, `Null` — before rendering; any other element
is rendered as itself. -/
def renderArrList (sc : Scope) : List Node → Except TErr (List String)
  | [] => Except.ok []
  | e :: es =>
    match (if isStrOrConst e then Except.ok (pyTitle ("Null")) else render sc e) with
    | Except.error err => Except.error err
    | Except.ok r =>
      match renderArrList sc es with
      | Except.error err => Except.error err
      | Except.ok rs => Except.ok (r :: rs)

end


/-- Accumulate a decimal digit string (Python `int(...)` body). -/
def digitsVal : Nat → List Char → Option Nat
  | acc, [] => some acc
  | acc, c :: cs => if c.isDigit then digitsVal (acc * 10 + (c.toNat - ('0').toNat)) cs else none

/-- Python `int(str)` on an already-stripped token: an optional sign
followed by at least one decimal digit; anything else raises `ValueError`
(`none`). -/
def pyInt (s : String) : Option Int :=
  match s.data with
  | [] => none
  | ('-') :: [] => none
  | ('-') :: d :: ds => (digitsVal 0 (d :: ds)).map (fun n => -(n : Int))
  | ds => (digitsVal 0 ds).map (fun n => (n : Int))

/-- `str.startswith(p)`. -/
def pyStartsWith (s p : String) : Bool :=
  strHasPre p.data s.data
where
  strHasPre : List Char → List Char → Bool
    | [], _ => true
    | _ :: _, [] => false
    | c :: cs, d :: ds => c = d && strHasPre cs ds

/-- `Set Global Variable At Index` emission of `visitAssign` (lines
220-221), guarded by the storage-domain prefix of the name. -/
def emitGlobal (name : String) (idx : Option Int) (vs : String) : String :=
  if pyStartsWith name ("gvar_") then
    "Set Global Variable At Index(A, " ++ optIdxStr idx ++ ", " ++ vs ++ ")"
  else ""

/-- `Set Player Variable At Index` emission of `visitAssign` (lines
222-223). -/
def emitPlayer (name : String) (idx : Option Int) (ps vs : String) : String :=
  if pyStartsWith name ("pvar_") then
    "Set Player Variable At Index(" ++ ps ++ ", A, " ++ optIdxStr idx ++ ", " ++ vs ++ ")"
  else ""

/-- The `GlobalVar` branch of `visitAssign` (lines 193-197 and 220-221):
look the name up through the scope chain; reuse the index of an existing
`Variable` binding, otherwise draw `next(self.global_index)`; always
rebind in the local namespace; then emit, rendering the stored value in
the updated scope.  A pre-existing non-`Variable` binding would make
`var.index` raise `AttributeError` (unmodelled). -/
def visitAssignGlobal (st : TState) (sc : Scope) (name : String) (value : Node) :
    Except TErr (TState × Scope × Option Int × String) :=
  match scopeGet sc name with
  | some (Binding.var _ idx) =>
    let sc' := scopeAssign sc name value idx
    (match render sc' value with
     | Except.error e => Except.error e
     | Except.ok vs => Except.ok (st, sc', idx, emitGlobal name idx vs))
  | some (Binding.raw _) => Except.error TErr.unmodelled
  | none =>
    let i := st.globalIndex
    let sc' := scopeAssign sc name value (some i)
    (match render sc' value with
     | Except.error e => Except.error e
     | Except.ok vs =>
       Except.ok ({ st with globalIndex := i + 1 }, sc', some i, emitGlobal name (some i) vs))

/-- The `PlayerVar` branch of `visitAssign` (lines 198-203 and 222-223),
identical to the global branch except that a fresh index is drawn from
`self.player_index` and the emission renders the owner expression. -/
def visitAssignPlayer (st : TState) (sc : Scope) (name : String) (player value : Node) :
    Except TErr (TState × Scope × Option Int × String) :=
  match scopeGet sc name with
  | some (Binding.var _ idx) =>
    let sc' := scopeAssign sc name value idx
    (match render sc' player with
     | Except.error e => Except.error e
     | Except.ok ps =>
       match render sc' value with
       | Except.error e => Except.error e
       | Except.ok vs => Except.ok (st, sc', idx, emitPlayer name idx ps vs))
  | some (Binding.raw _) => Except.error TErr.unmodelled
  | none =>
    let i := st.playerIndex
    let sc' := scopeAssign sc name value (some i)
    (match render sc' player with
     | Except.error e => Except.error e
     | Except.ok ps =>
       match render sc' value with
       | Except.error e => Except.error e
       | Except.ok vs =>
         Except.ok ({ st with playerIndex := i + 1 }, sc', some i, emitPlayer name (some i) ps vs))

/-- Python list element assignment `l[k] = v` with negative-index support;
`none` is `IndexError`. -/
def pyListSet (l : List Node) (k : Int) (v : Node) : Option (List Node) :=
  if 0 ≤ k ∧ k < l.length then some (l.set k.toNat v)
  else if -(l.length : Int) ≤ k ∧ k < 0 then some (l.set (l.length + k).toNat v)
  else none

/-- The `Item` branch of `visitAssign` (lines 204-217 and 220-223) for a
global array: render the index expression, parse it with `int(...)`
(`ValueError` becomes the unsupported-construct error), mutate the bound
array in place at that element, then rebind the name — passing the parsed
element index, not the variable's slot, as `index` — and emit
`Set Global Variable At Index` with that same element index. -/
def visitAssignItem (st : TState) (sc : Scope) (parentName : String) (idxNode value : Node) :
    Except TErr (TState × Scope × Int × String) :=
  match render sc idxNode with
  | Except.error e => Except.error e
  | Except.ok idxStr =>
    match pyInt idxStr with
    | none => Except.error (TErr.notImplementedErr ("Array assignment only supports literal indices"))
    | some k =>
      match scopeGet sc parentName with
      | some (Binding.var (Node.arrLit elems) _) =>
        (match pyListSet elems k value with
         | none => Except.error TErr.unmodelled
         | some newElems =>
           let newVal := Node.arrLit newElems
           let sc1 := scopeMutate sc parentName newVal
           let sc2 := scopeAssign sc1 parentName newVal (some k)
           (match render sc2 newVal with
            | Except.error e => Except.error e
            | Except.ok vs => Except.ok (st, sc2, k, emitGlobal parentName (some k) vs)))
      | _ => Except.error TErr.unmodelled

/-- String append is associative (via the underlying character lists). -/
theorem strAppAssoc (a b c : String) : a ++ b ++ c = a ++ (b ++ c) := by
  apply String.ext
  simp [String.data_append, List.append_assoc]

/-- The exact arithmetic meaning of each foldable operator, stated the way
the spec reads: the operator's exact rational result, with division by
zero yielding 0 (Lean's `/` convention already sends `a / 0` to `0`,
matching the caught `ZeroDivisionError`), `^` as the integer power of the
exponent's numerator, and `%` as Python's floored modulo. -/
def exactArith : BOp → ℚ → ℚ → ℚ
  | BOp.add, a, b => a + b
  | BOp.sub, a, b => a - b
  | BOp.mul, a, b => a * b
  | BOp.div, a, b => a / b
  | BOp.pow, a, b => a ^ b.num
  | BOp.mod, a, b => if b = 0 then 0 else a - b * (⌊a / b⌋ : ℚ)
  | _, _, _ => 0

/-- C5: for every pair of literal `Number` operands and every operator in
`{+,-,*,/,^,%}` (with `^` taken at an integer exponent, the domain on which
exact arithmetic is defined), visiting the `BinaryOp` folds to a literal
`Number` rendering of the exact arithmetic result; division by zero (and
`0 ^ negative`, the other caught `ZeroDivisionError`) folds to the literal
`0` rather than failing or emitting a runtime instruction, which is exactly
the `a / 0 = 0` convention `exactArith` inherits from `ℚ`. -/
theorem c5_constant_fold :
    (∀ (op : BOp) (sc : Scope) (a b : ℚ),
      (op = BOp.add ∨ op = BOp.sub ∨ op = BOp.mul ∨ op = BOp.div ∨ op = BOp.pow ∨ op = BOp.mod) →
      (op = BOp.pow → b.den = 1) →
      render sc (Node.binOp op (Node.num a) (Node.num b)) = Except.ok (renderQ (exactArith op a b)))
    ∧ (∀ a : ℚ, exactArith BOp.div a 0 = 0) := by
  constructor
  · intro op sc a b hmem hpow
    rcases hmem with h|h|h|h|h|h <;> subst h
    · simp [render, numTable, exactArith]
    · simp [render, numTable, exactArith]
    · simp [render, numTable, exactArith]
    · by_cases hb : b = 0
      · simp [render, numTable, exactArith, hb]
      · simp [render, numTable, exactArith, hb]
    · have hd := hpow rfl
      simp only [render, numTable, exactArith]
      rw [if_pos hd]
      by_cases h0 : a = 0 ∧ b.num < 0
      · rw [if_pos h0]
        have hz : a ^ b.num = 0 := by rw [h0.1]; exact zero_zpow _ (h0.2.ne)
        simp [hz]
      · rw [if_neg h0]
    · by_cases hb : b = 0
      · simp [render, numTable, exactArith, hb]
      · simp [render, numTable, exactArith, hb]
  · intro a
    simp [exactArith]

/-- C5 witness: `1 / 0` folds to the literal `0`. -/
theorem c5_witness :
    render [] (Node.binOp BOp.div (Node.num 1) (Node.num 0)) =
      Except.ok (renderQ (exactArith BOp.div 1 0)) :=
  c5_constant_fold.1 BOp.div [] 1 0 (Or.inr (Or.inr (Or.inr (Or.inl rfl))))
    (fun h => BOp.noConfusion h)

/-- Storing a binding makes it the one found by a subsequent dictionary
lookup of the same name. -/
theorem lookupNS_setNS (ns : NS) (n : String) (b : Binding) : lookupNS (setNS ns n b) n = some b := by
  induction ns with
  | nil => simp [setNS, lookupNS]
  | cons kv rest ih =>
    obtain ⟨k, v⟩ := kv
    by_cases h : n = k
    · simp [setNS, h, lookupNS]
    · simp [setNS, h, lookupNS, ih]

/-- After `Scope.assign`, `Scope.get` of the same name resolves to the new
binding (assignment writes the local namespace, which lookup searches
first). -/
theorem scopeGet_scopeAssign (sc : Scope) (n : String) (v : Node) (i : Option Int) :
    scopeGet (scopeAssign sc n v i) n = some (Binding.var v i) := by
  cases sc with
  | nil => simp [scopeAssign, scopeGet, lookupNS]
  | cons ns parents => simp [scopeAssign, scopeGet, lookupNS_setNS]

/-- C1: slot indices are stable.  (i) The first assignment of an unbound
name draws the next global counter value, bumps only that counter, and
rebinds the name to that index; (ii) a later assignment anywhere the name
is visible reuses the looked-up index and leaves both counters untouched;
(iii) after an assignment the name resolves to the assigned index;
(iv) a read (`visitGlobalVar`) emits a storage reference using exactly the
looked-up index; (v) lookup in a child scope whose local namespace lacks
the name falls through to the parent chain, so descendants reuse the same
slot; (vi) the player domain draws from its own counter. -/
theorem c1_stable_slot :
    (∀ (st : TState) (sc : Scope) (n : String) (v : Node) (vs : String),
      scopeGet sc n = none →
      render (scopeAssign sc n v (some st.globalIndex)) v = Except.ok vs →
      visitAssignGlobal st sc n v =
        Except.ok ({ st with globalIndex := st.globalIndex + 1 },
          scopeAssign sc n v (some st.globalIndex), some st.globalIndex,
          emitGlobal n (some st.globalIndex) vs))
    ∧ (∀ (st : TState) (sc : Scope) (n : String) (v prev : Node) (i : Int) (vs : String),
      scopeGet sc n = some (Binding.var prev (some i)) →
      render (scopeAssign sc n v (some i)) v = Except.ok vs →
      visitAssignGlobal st sc n v =
        Except.ok (st, scopeAssign sc n v (some i), some i, emitGlobal n (some i) vs))
    ∧ (∀ (sc : Scope) (n : String) (v : Node) (i : Option Int),
      scopeGet (scopeAssign sc n v i) n = some (Binding.var v i))
    ∧ (∀ (sc : Scope) (n : String) (v : Node) (i : Int),
      scopeGet sc n = some (Binding.var v (some i)) → isStrNode v = false →
      render sc (Node.gvar n) =
        Except.ok ("Value In Array(Global Variable(A), " ++ toString i ++ ")"))
    ∧ (∀ (ns : NS) (sc : Scope) (n : String),
      lookupNS ns n = none → scopeGet (ns :: sc) n = scopeGet sc n)
    ∧ (∀ (st : TState) (sc : Scope) (n : String) (p v : Node) (ps vs : String),
      scopeGet sc n = none →
      render (scopeAssign sc n v (some st.playerIndex)) p = Except.ok ps →
      render (scopeAssign sc n v (some st.playerIndex)) v = Except.ok vs →
      visitAssignPlayer st sc n p v =
        Except.ok ({ st with playerIndex := st.playerIndex + 1 },
          scopeAssign sc n v (some st.playerIndex), some st.playerIndex,
          emitPlayer n (some st.playerIndex) ps vs)) := by
  refine ⟨?_, ?_, ?_, ?_, ?_, ?_⟩
  · intro st sc n v vs h hr
    simp [visitAssignGlobal, h, hr]
  · intro st sc n v prev i vs h hr
    simp [visitAssignGlobal, h, hr]
  · intro sc n v i
    exact scopeGet_scopeAssign sc n v i
  · intro sc n v i h hs
    cases v <;> simp_all [render, isStrNode, optIdxStr]
  · intro ns sc n h
    simp [scopeGet, h]
  · intro st sc n p v ps vs h hp hv
    simp [visitAssignPlayer, h, hp, hv]

/-- C1 witness: the first assignment of `gvar_x` in an empty scope draws
slot 0, bumps the global counter to 1, and emits a store at index 0. -/
theorem c1_witness :
    visitAssignGlobal ⟨0, 0⟩ [[]] ("gvar_x") (Node.num 5) =
      Except.ok (⟨1, 0⟩, scopeAssign [[]] ("gvar_x") (Node.num 5) (some 0), some 0,
        emitGlobal ("gvar_x") (some 0) ("5")) :=
  c1_stable_slot.1 ⟨0, 0⟩ [[]] ("gvar_x") (Node.num 5) ("5") rfl rfl

/-- C2, evaluated at the failing input: `arr` is bound to the 3-element
array `[1, 2, 3]` at slot 0; `arr[2] = 9` does replace exactly element 2
and re-store the full updated array — but under index 2, the parsed
element index, not the slot 0 the name already had: the emitted store
targets global index 2 and the binding's slot is rebound to 2. -/
theorem c2_code_eval :
    visitAssignItem ⟨5, 7⟩
        [[(("gvar_arr"), Binding.var (Node.arrLit [Node.num 1, Node.num 2, Node.num 3]) (some 0))]]
        ("gvar_arr") (Node.num 2) (Node.num 9) =
      Except.ok (⟨5, 7⟩,
        [[(("gvar_arr"), Binding.var (Node.arrLit [Node.num 1, Node.num 2, Node.num 9]) (some 2))]],
        2,
        ("Set Global Variable At Index(A, 2, Append To Array(Append To Array(Append To Array(Empty Array, 1), 2), 9))")) := by
  rfl

/-- The non-literal-index half of the array-assignment behaviour: indexing
`arr` with a variable renders to a storage reference, `int(...)` raises
`ValueError`, and the unsupported-construct error is raised. -/
theorem itemAssign_nonliteral_index :
    visitAssignItem ⟨5, 7⟩
        [[(("gvar_arr"), Binding.var (Node.arrLit [Node.num 1, Node.num 2, Node.num 3]) (some 0)),
          (("gvar_i"), Binding.var (Node.num 0) (some 1))]]
        ("gvar_arr") (Node.gvar ("gvar_i")) (Node.num 9) =
      Except.error (TErr.notImplementedErr ("Array assignment only supports literal indices")) := by
  rfl

/-- A lowered code fragment, represented by the list of maximal segments
of the emitted text between consecutive occurrences of the statement
separator. -/
abbrev Frag := List String

/-- String concatenation on fragments: the last segment of the left text
and the first segment of the right text fuse into one segment. -/
def fcat : Frag → Frag → Frag
  | [], ys => ys
  | [x], [] => [x]
  | [x], y :: ys => (x ++ y) :: ys
  | x :: x2 :: xs, ys => x :: fcat (x2 :: xs) ys

/-- The two-character separator as a fragment of its own. -/
def sepTok : Frag := ["", ""]

/-- Python `text.count(sep)`: one fewer than the number of segments. -/
def sepCount (f : Frag) : Nat := f.length - 1

/-- Python `sep.join(frags)`. -/
def fjoinSep : List Frag → Frag
  | [] => [""]
  | [f] => f
  | f :: g :: fs => fcat f (fcat sepTok (fjoinSep (g :: fs)))

/-- `Transpiler.min_wait`. -/
def minWait : String := "Wait(0.016, Ignore Condition)"

theorem fcat_ne_nil (xs ys : Frag) (h : xs ≠ []) : fcat xs ys ≠ [] := by
  match xs, ys with
  | [], _ => exact absurd rfl h
  | [x], [] => simp [fcat]
  | [x], y :: ys => simp [fcat]
  | x :: x2 :: xs, ys => simp [fcat]

theorem fcat_length (xs ys : Frag) (hx : xs ≠ []) (hy : ys ≠ []) :
    (fcat xs ys).length + 1 = xs.length + ys.length := by
  induction xs with
  | nil => exact absurd rfl hx
  | cons x xs ih =>
    cases xs with
    | nil =>
      cases ys with
      | nil => exact absurd rfl hy
      | cons y ys => simp [fcat]; omega
    | cons x2 xs' =>
      have h2 := ih (by simp)
      simp [fcat] at h2 ⊢
      omega

theorem fjoinSep_ne_nil (fs : List Frag) (h : ∀ f ∈ fs, f ≠ []) : fjoinSep fs ≠ [] := by
  match fs with
  | [] => simp [fjoinSep]
  | [f] => simpa [fjoinSep] using h f (by simp)
  | f :: g :: fs' => exact fcat_ne_nil _ _ (h f (by simp))

theorem fjoinSep_length (fs : List Frag) (h : ∀ f ∈ fs, f ≠ []) (hfs : fs ≠ []) :
    (fjoinSep fs).length = (fs.map List.length).sum := by
  match fs with
  | [] => exact absurd rfl hfs
  | [f] => simp [fjoinSep]
  | f :: g :: fs' =>
    have hrest : (fjoinSep (g :: fs')).length = ((g :: fs').map List.length).sum :=
      fjoinSep_length (g :: fs') (fun x hx => h x (by simp [hx])) (by simp)
    have hne : fjoinSep (g :: fs') ≠ [] := fjoinSep_ne_nil _ (fun x hx => h x (by simp [hx]))
    have l1 : (fcat sepTok (fjoinSep (g :: fs'))).length + 1 = 2 + (fjoinSep (g :: fs')).length :=
      fcat_length _ _ (by simp [sepTok]) hne
    have l2 : (fcat f (fcat sepTok (fjoinSep (g :: fs')))).length + 1 =
        f.length + (fcat sepTok (fjoinSep (g :: fs'))).length :=
      fcat_length _ _ (h f (by simp)) (fcat_ne_nil _ _ (by simp [sepTok]))
    have hj : fjoinSep (f :: g :: fs') = fcat f (fcat sepTok (fjoinSep (g :: fs'))) := by
      simp [fjoinSep]
    rw [hj]
    simp only [List.map_cons, List.sum_cons] at hrest ⊢
    omega

/-- `visitWhile` (lines 245-252), parameterized by the rendered condition
and the already-lowered fragment of each body child.  The skip offset is
`len(node.body.children) + 2` — a count of AST children, not of lowered
statements. -/
def visitWhile (tabs cond : String) (bodyChildren : List Frag) : Frag :=
  let numLines := bodyChildren.length + 2
  let start := fcat [("Skip If(Not(" ++ cond ++ "), " ++ toString numLines ++ ")")] sepTok
  let withBody := bodyChildren.foldl (fun acc c => fcat acc (fcat [tabs] (fcat c sepTok))) start
  fcat withBody (fcat [(tabs ++ minWait)] (fcat sepTok [(tabs ++ "Loop If(" ++ cond ++ ")")]))

/-- C3, evaluated at the failing input `while A { while B { x = 1 } }`:
the inner while lowers to 4 statements, so the claim requires the outer
offset `B + 2 = 6`, but the emitted outer header is `Skip If(Not(A), 3)`
(one AST child plus 2). -/
theorem c3_code_eval :
    visitWhile "" ("A") [visitWhile "" ("B") [[("Set Global Variable At Index(A, 0, 1)")]]] =
      [("Skip If(Not(A), 3)"),
       ("Skip If(Not(B), 3)"),
       ("Set Global Variable At Index(A, 0, 1)"),
       ("Wait(0.016, Ignore Condition)"),
       ("Loop If(B)"),
       ("Wait(0.016, Ignore Condition)"),
       ("Loop If(A)")] ∧
    (visitWhile "" ("B") [[("Set Global Variable At Index(A, 0, 1)")]]).length + 2 = 6 := by
  constructor
  · rfl
  · rfl

/-- The false branch of an `If` node as `visitIf` sees it: either another
`If` (whose already-lowered fragment is spliced in whole) or a plain block
of statements (each child's fragment, written `tabs + code + sep`). -/
inductive FalsePart where
  | elseIf (code : Frag)
  | stmts (children : List Frag)

/-- `visitIf` (lines 226-243): the true-branch children are joined by
`''.join` — with no separator — and the leading skip offset is
`true_code.count(sep) + bool(false_block)`; the `Skip` before the false
branch gets `false_code.count(sep) + (false_block is If)`; an
else-with-empty-rendering leaves the Python format placeholder in place. -/
def visitIf (tabs cond : String) (trueChildren : List Frag) (fb : Option FalsePart) : Frag :=
  let trueCode := trueChildren.foldl fcat [""]
  let falseCode : Frag :=
    match fb with
    | none => [""]
    | some (FalsePart.elseIf c) => c
    | some (FalsePart.stmts cs) =>
      cs.foldl (fun acc c => fcat acc (fcat [tabs] (fcat c sepTok))) [""]
  let skipOffset := sepCount trueCode + (if fb.isSome then 1 else 0)
  let skipCode := fcat [("Skip If(Not(" ++ cond ++ "), " ++ toString skipOffset ++ ")")] sepTok
  let isElseIf : Bool := match fb with | some (FalsePart.elseIf _) => true | _ => false
  let skipFalse : Frag :=
    match fb with
    | none => [""]
    | some _ =>
      if falseCode ≠ [""] then
        fcat [(tabs ++ "Skip(" ++ toString (sepCount falseCode + (if isElseIf then 1 else 0)) ++ ")")] sepTok
      else [(tabs ++ "Skip(\x7b\x7d)"), ""]
  fcat skipCode (fcat trueCode (fcat skipFalse falseCode))

/-- C6, evaluated at the failing input `if C { x = 5 } else { y = 6 }`
(T = 1, F = 1): the claim requires `Skip If(Not(C), 2)` then the true
statement, then a separate `Skip(1)`; the code joins true-branch children
without separators, so it emits `Skip If(Not(C), 1)` and fuses the true
statement with the `Skip(1)` into a single emitted statement. -/
theorem c6_code_eval :
    visitIf "" ("C") [[("Set Global Variable At Index(A, 0, 5)")]]
        (some (FalsePart.stmts [[("Set Global Variable At Index(A, 1, 6)")]])) =
      [("Skip If(Not(C), 1)"),
       ("Set Global Variable At Index(A, 0, 5)Skip(1)"),
       ("Set Global Variable At Index(A, 1, 6)"),
       ""] := by
  rfl

/-- The runtime-length branch of `visitFor` (lines 266-280), parameterized
by the rendered iterable and the already-lowered fragment of each body
child (visited in the loop's child scope).  One fresh global index is
drawn for the position counter; the pointer is bound to it in a child
scope and rendered through `visitGlobalVar`; the skip offset is
`block.count(sep)` measured on the joined, already-lowered text.  The
`//FOR START` / `//SKIP TO` backpatch markers handled by `resolve_skips`
are not part of the emitted statements modelled here. -/
def visitForUnknown (st : TState) (sc : Scope) (ptrName iterRender : String)
    (bodyChildren : List Frag) : Except TErr (TState × Int × Frag) :=
  let index := st.globalIndex
  let st' := { st with globalIndex := index + 1 }
  let forScope := scopeAssign ([] :: sc) ptrName (Node.num 0) (some index)
  match render forScope (Node.gvar ptrName) with
  | Except.error e => Except.error e
  | Except.ok ptr =>
    let resetP : Frag := [("Set Global Variable At Index(A, " ++ toString index ++ ", 0)"), ""]
    let block := fjoinSep (bodyChildren ++
      [[("Modify Global Variable At Index(A, " ++ toString index ++ ", Add, 1)")],
       [minWait], [("Loop")], resetP])
    let skipLine := "Skip If(Compare(Count Of(" ++ iterRender ++ "), ==, " ++ ptr ++ "), "
        ++ toString (sepCount block) ++ ")"
    Except.ok (st', index, fcat resetP (fcat [skipLine] (fcat sepTok block)))

/-- Merging two adjacent string literals under right-associated append. -/
theorem strLitMerge (a b c : String) (h : a ++ b = c) (t : String) :
    a ++ (b ++ t) = c ++ t := by
  rw [← strAppAssoc, h]

/-- C7: for a for-loop over a collection of unknown compile-time size,
exactly one fresh global slot is drawn for the position counter (the
global counter advances by exactly one, the player counter is untouched,
and the pointer binding and both counter instructions use that slot), and
the `Skip If(Compare(Count Of(collection), ==, pointer), L)` offset `L`
equals the exact statement count of the already-lowered body plus the
increment, minimal wait, loop-back and counter-reset instructions
(`L = B + 4`). -/
theorem c7_for_offset (st : TState) (sc : Scope) (p iter : String) (body : List Frag)
    (hb : ∀ f ∈ body, f ≠ []) :
    ∃ rest, visitForUnknown st sc p iter body =
      Except.ok ({ st with globalIndex := st.globalIndex + 1 }, st.globalIndex,
        ("Set Global Variable At Index(A, " ++ toString st.globalIndex ++ ", 0)") ::
        ("Skip If(Compare(Count Of(" ++ iter ++ "), ==, Value In Array(Global Variable(A), "
            ++ toString st.globalIndex ++ ")), "
            ++ toString ((body.map List.length).sum + 4) ++ ")") :: rest) := by
  have hall : ∀ f ∈ (body ++
      [[("Modify Global Variable At Index(A, " ++ toString st.globalIndex ++ ", Add, 1)")],
       [minWait], [("Loop")],
       [("Set Global Variable At Index(A, " ++ toString st.globalIndex ++ ", 0)"), ""]]), f ≠ [] := by
    intro f hf
    rcases List.mem_append.1 hf with h | h
    · exact hb f h
    · simp at h
      rcases h with h | h | h | h <;> subst h <;> simp
  have hlen := fjoinSep_length _ hall (by simp)
  have hne := fjoinSep_ne_nil _ hall
  obtain ⟨b, bs, hbs⟩ : ∃ b bs, fjoinSep (body ++
      [[("Modify Global Variable At Index(A, " ++ toString st.globalIndex ++ ", Add, 1)")],
       [minWait], [("Loop")],
       [("Set Global Variable At Index(A, " ++ toString st.globalIndex ++ ", 0)"), ""]]) = b :: bs := by
    cases h : fjoinSep (body ++ _) with
    | nil => exact absurd h hne
    | cons b bs => exact ⟨b, bs, rfl⟩
  refine ⟨b :: bs, ?_⟩
  simp only [visitForUnknown, scopeAssign, setNS, render, scopeGet, lookupNS, if_pos rfl,
    optIdxStr, if_true]
  rw [hbs] at hlen ⊢
  have hcount : sepCount (b :: bs) = (body.map List.length).sum + 4 := by
    have h5 : (b :: bs).length = (body.map List.length).sum + 5 := by
      rw [hlen]
      simp
    simp only [sepCount, h5]
    omega
  rw [hcount]
  simp only [fcat, sepTok, String.append_empty, String.empty_append]
  simp only [strAppAssoc]
  rw [strLitMerge (")") ("), ") (")), ") rfl,
    strLitMerge ("), ==, ") ("Value In Array(Global Variable(A), ")
      ("), ==, Value In Array(Global Variable(A), ") rfl]

/-- C7 witness: a one-statement body gives offset 5 and counter slot 0. -/
theorem c7_witness :
    ∃ rest, visitForUnknown ⟨0, 0⟩ [] ("gvar_i") ("It") [[("X")]] =
      Except.ok (⟨1, 0⟩, 0,
        ("Set Global Variable At Index(A, 0, 0)") ::
        ("Skip If(Compare(Count Of(It), ==, Value In Array(Global Variable(A), 0)), 5)") :: rest) :=
  c7_for_offset ⟨0, 0⟩ [] ("gvar_i") ("It") [[("X")]] (by decide)

/-- `visitReturn` (lines 455-458): a `Return` carrying a value raises the
internal `ReturnError`; a bare `Return` emits nothing. -/
def visitReturn (value : Option Node) : Except TErr String :=
  match value with
  | some v => Except.error (TErr.returnSignal v)
  | none => Except.ok ("")

/-- The body-lowering loop of `visitCall`'s `Function` branch (lines
442-446): each child is visited inside a per-child `try`; a raised
`ReturnError` is caught right there, its carried value is rendered and
appended to the code — and the loop then continues with the next child
(there is no `break`).  Any other error propagates. -/
def inlineBody (sc : Scope) : List (Except TErr String) → Except TErr String
  | [] => Except.ok ("")
  | r :: rs =>
    match r with
    | Except.ok s =>
      (match inlineBody sc rs with
       | Except.error e => Except.error e
       | Except.ok t => Except.ok (s ++ t))
    | Except.error (TErr.returnSignal v) =>
      (match render sc v with
       | Except.error e => Except.error e
       | Except.ok s =>
         match inlineBody sc rs with
         | Except.error e => Except.error e
         | Except.ok t => Except.ok (s ++ t))
    | Except.error e => Except.error e

/-- `visitCall`'s user-`Function` branch (lines 433-446): assert the
argument count against the declared parameter count, then build a child
scope binding each parameter name to its raw (unevaluated) argument node
and run the body-lowering loop in it.  The children's lowering outcomes
are passed in as `bodyResults`. -/
def visitCallFunction (sc : Scope) (fname : String) (params : List String) (args : List Node)
    (bodyResults : List (Except TErr String)) : Except TErr String :=
  if params.length = args.length then
    inlineBody (((params.zip args).map (fun pa => (pa.1, Binding.raw pa.2))) :: sc) bodyResults
  else
    Except.error (TErr.invalidParameter ("'" ++ fname ++ "' expected " ++ toString params.length
      ++ " arguments, received " ++ toString args.length))

/-- `visitCall`'s compile-time-builtin branch (lines 447-452): the
callable is applied to the raw argument nodes; `none` models a Python
`TypeError` (typically a wrong argument count), which the branch catches
and swallows with a debug print, emitting nothing and continuing; a
produced node is rendered as the call's code. -/
def visitCallBuiltin (sc : Scope) (f : List Node → Option Node) (args : List Node) :
    Except TErr String :=
  match f args with
  | some r => render sc r
  | none => Except.ok ("")

/-- C4, evaluated at the failing input: inlining a function whose body is
`Return 1` followed by an assignment emits `1` and then **also** the
post-`Return` assignment — lowering does not halt at the first `Return`
(the per-child `try` catches the signal and the loop continues).  The
signal is still caught at the call boundary: the overall result is `ok`,
so it never escapes to the top level. -/
theorem c4_code_eval :
    visitCallFunction [[]] ("f") [] []
        [visitReturn (some (Node.num 1)),
         Except.ok ("Set Global Variable At Index(A, 0, 5)")] =
      Except.ok ("1Set Global Variable At Index(A, 0, 5)") := by
  rfl

/-- `Builtin.ceil` (lines 47-50): wraps the unpacked arguments in a
`Round To Integer` native call with direction `Up`.  The `*n` unpacking of
the second Python parameter is modelled by passing the unpacked list. -/
def builtinCeil (tp : Node) (n : List Node) : Node :=
  Node.owid ("Round To Integer") (n ++ [Node.owid ("Up") []])

/-- `Builtin.floor` (lines 52-55): its body is identical to `ceil`'s —
it also appends direction `Up`. -/
def builtinFloor (tp : Node) (n : List Node) : Node :=
  Node.owid ("Round To Integer") (n ++ [Node.owid ("Up") []])

/-- C8, evaluated at the failing input: `floor` wraps its argument in
`Round To Integer(..., Up)` — the same direction as `ceil` — not `Down`. -/
theorem c8_code_eval :
    builtinFloor (Node.num 0) [Node.gvar ("gvar_x")] =
      Node.owid ("Round To Integer") [Node.gvar ("gvar_x"), Node.owid ("Up") []] ∧
    builtinCeil (Node.num 0) [Node.gvar ("gvar_x")] =
      Node.owid ("Round To Integer") [Node.gvar ("gvar_x"), Node.owid ("Up") []] :=
  ⟨rfl, rfl⟩

/-- `Builtin.ceil` as `visitCall` invokes it: `func(*node.args)` against
the `def ceil(tp, n)` signature.  Any argument count other than two, or a
second argument that cannot be unpacked element-wise, raises `TypeError`
(`none`); `AST.py` being absent, unpacking a node is modelled as taking a
literal `Array`'s elements. -/
def pyCeil : List Node → Option Node
  | [tp, Node.arrLit es] => some (builtinCeil tp es)
  | _ => none

/-- C9 counterexample: a compile-time builtin called with the wrong
argument count (`ceil` with one argument instead of two) does **not**
raise any error — the `TypeError` is swallowed and the call lowers to the
empty string, with transpilation continuing. -/
theorem c9_counterexample :
    visitCallBuiltin [] pyCeil [Node.num 1] = Except.ok ("") := rfl

/-- C9 as amended: a user-defined function called with an argument count
different from its parameter count raises the aborting arity error; a
compile-time builtin whose invocation raises `TypeError` (as a wrong
argument count does) is silently swallowed with a debug print, emitting no
code. -/
theorem c9_amended :
    (∀ (sc : Scope) (fname : String) (params : List String) (args : List Node)
        (bodyResults : List (Except TErr String)),
      params.length ≠ args.length →
      visitCallFunction sc fname params args bodyResults =
        Except.error (TErr.invalidParameter ("'" ++ fname ++ "' expected " ++ toString params.length
          ++ " arguments, received " ++ toString args.length)))
    ∧ (∀ (sc : Scope) (f : List Node → Option Node) (args : List Node),
      f args = none → visitCallBuiltin sc f args = Except.ok ("")) := by
  constructor
  · intro sc fname params args bodyResults h
    simp [visitCallFunction, h]
  · intro sc f args h
    simp [visitCallBuiltin, h]

/-- C9 witness: `f(x)` called with no arguments raises the arity error;
`ceil` called with one argument is swallowed. -/
theorem c9_amended_witness :
    visitCallFunction [] ("f") [("x")] [] [] =
      Except.error (TErr.invalidParameter ("'f' expected 1 arguments, received 0")) ∧
    visitCallBuiltin [] pyCeil [Node.num 1] = Except.ok ("") :=
  ⟨c9_amended.1 [] ("f") [("x")] [] [] (by decide), c9_amended.2 [] pyCeil [Node.num 1] rfl⟩

/-- The right-nested `Append To Array` chain the spec describes,
accumulated from the `Empty Array` sentinel. -/
def rightNested (rs : List String) : String :=
  rs.foldl (fun acc r => "Append To Array(" ++ acc ++ ", " ++ r ++ ")") ("Empty Array")

/-- The repeated-prefix block commutes with one more copy of itself. -/
theorem appendChainComm (n : Nat) (t : String) :
    appendChain n ++ ("Append To Array(" ++ t) = "Append To Array(" ++ (appendChain n ++ t) := by
  induction n with
  | zero => simp [appendChain, String.empty_append]
  | succ m ih =>
    simp only [appendChain]
    rw [strAppAssoc, ih]
    simp [strAppAssoc]

/-- `visitArray`'s replicate-open-parens-and-join construction equals the
left fold that nests one `Append To Array` per element. -/
theorem chain_foldl (rs : List String) (acc : String) (h : rs ≠ []) :
    appendChain rs.length ++ (acc ++ ", ") ++ pyJoin ("), ") rs ++ ")" =
      rs.foldl (fun a r => "Append To Array(" ++ a ++ ", " ++ r ++ ")") acc := by
  induction rs generalizing acc with
  | nil => exact absurd rfl h
  | cons x rest ih =>
    cases rest with
    | nil =>
      simp [appendChain, pyJoin, strAppAssoc, String.append_empty, String.empty_append]
    | cons y t =>
      rw [List.foldl_cons, ← ih ("Append To Array(" ++ acc ++ ", " ++ x ++ ")") (by simp)]
      simp only [List.length_cons, appendChain, pyJoin, strAppAssoc]
      rw [appendChainComm]
      rw [strLitMerge (")") (", ") ("), ") rfl]

/-- `visitArray`'s construction, started from the `Empty Array` sentinel,
is exactly the right-nested chain. -/
theorem chain_emptyArr (rs : List String) (h : rs ≠ []) :
    appendChain rs.length ++ "Empty Array, " ++ pyJoin ("), ") rs ++ ")" = rightNested rs := by
  have h2 := chain_foldl rs ("Empty Array") h
  rw [show (("Empty Array" : String) ++ ", ") = ("Empty Array, ") from rfl] at h2
  exact h2

/-- Rendering a non-empty element list yields a non-empty render list. -/
theorem renderArrList_cons_ne_nil (sc : Scope) (e : Node) (es : List Node) (rs : List String)
    (h : renderArrList sc (e :: es) = Except.ok rs) : rs ≠ [] := by
  simp only [renderArrList] at h
  split at h
  · exact absurd h (by simp)
  · split at h
    · exact absurd h (by simp)
    · simp only [Except.ok.injEq] at h
      subst h
      simp

/-- C10: an empty array literal renders as `Empty Array`; a non-empty one
renders as the right-nested `Append To Array` chain over its rendered
elements, where every `String` or `Constant` element is silently replaced
by the constant `Null` and every other element is rendered as itself. -/
theorem c10_array_null :
    (∀ sc : Scope, render sc (Node.arrLit []) = Except.ok ("Empty Array"))
    ∧ (∀ (sc : Scope) (elems : List Node) (rs : List String),
        elems ≠ [] → renderArrList sc elems = Except.ok rs →
        render sc (Node.arrLit elems) = Except.ok (rightNested rs))
    ∧ (∀ (sc : Scope) (e : Node) (es : List Node) (rs : List String),
        isStrOrConst e = true → renderArrList sc es = Except.ok rs →
        renderArrList sc (e :: es) = Except.ok (("Null") :: rs))
    ∧ (∀ (sc : Scope) (e : Node) (es : List Node) (r : String) (rs : List String),
        isStrOrConst e = false → render sc e = Except.ok r →
        renderArrList sc es = Except.ok rs →
        renderArrList sc (e :: es) = Except.ok (r :: rs)) := by
  refine ⟨?_, ?_, ?_, ?_⟩
  · intro sc
    simp [render]
  · intro sc elems rs hne hr
    cases elems with
    | nil => exact absurd rfl hne
    | cons e es =>
      have hrs := renderArrList_cons_ne_nil sc e es rs hr
      obtain ⟨r, rs', rfl⟩ : ∃ r rs', rs = r :: rs' := by
        cases rs with
        | nil => exact absurd rfl hrs
        | cons r rs' => exact ⟨r, rs', rfl⟩
      simp only [render, hr]
      rw [show ((r :: rs').length) = rs'.length + 1 from rfl]
      have := chain_emptyArr (r :: rs') (by simp)
      simp only [List.length_cons] at this
      rw [← this]
  · intro sc e es rs hsc hr
    simp [renderArrList, hsc, hr, pyTitle, pyTitleGo]
  · intro sc e es r rs hsc hre hr
    simp [renderArrList, hsc, hre, hr]

/-- C10 witness: `["hi", 1]` renders with the string replaced by `Null`. -/
theorem c10_witness :
    render [] (Node.arrLit [Node.strNode ("hi") [], Node.num 1]) =
      Except.ok (rightNested [("Null"), ("1")]) :=
  c10_array_null.2.1 [] [Node.strNode ("hi") [], Node.num 1] [("Null"), ("1")]
    (by simp) rfl
